import Mathlib

/-!
Shallow embedding of the agent-orchestration core of the
fusion360-mcp-server repository (src/server/autonomous_agent.py and
src/server/agent_factory.py), together with theorems settling the
frozen claims about its specification.

Modelling conventions:
- Python wall-clock reads (time.time()) are modelled by an arbitrary
  clock function `clock : Nat -> Int` consumed in call order through an
  explicit tick counter; every call to time.time() returns `clock tick`
  and advances the tick by one.
- Python exceptions raised by a tool executor are modelled by the
  executor returning `ActResult.err msg`; the `try/except` around a
  single action in the act phase becomes a match on that result.
- Python truthiness tests (`if self.start_time:`, `if not
  self.current_goal:`, `self.end_time or time.time()`) are modelled
  exactly: `none` and the zero value (or empty string) are falsy.
- `str.lower()` is modelled as the ASCII lowering `Char.toLower`
  applied characterwise, which agrees with Python on all ASCII text.
-/

namespace FusionAgent

/-- Python value stored in an action parameter dictionary. -/
inductive PValue
  | str (s : String)
  | num (n : Int)
  deriving DecidableEq

/-- Result dictionary returned by a tool executor on success. -/
abbrev ToolResult := List (String × PValue)

/-- Outcome of one tool-executor invocation: a result dictionary, or the
text of the raised exception. -/
inductive ActResult
  | ok (r : ToolResult)
  | err (msg : String)
  deriving DecidableEq

/-- One planned action: named step, parameters, and the mutable
`status` and `result` keys added during the act phase (absent keys are
`none`, as with Python dict.get). -/
structure Action where
  action : String
  parameters : List (String × PValue)
  status : Option String
  result : Option ActResult
  deriving DecidableEq

/-- The report computed by the report phase (AutonomousAgent._report_phase). -/
structure Report where
  goal_completed : Bool
  actions_completed : Nat
  total_actions : Nat
  success_rate : ℚ
  iteration : Nat
  deriving DecidableEq

/-- One entry of the execution log. -/
inductive LogEntry
  | plan (timestamp : Int) (planned : List Action) (iteration : Nat)
  | act (timestamp : Int) (actions_executed : Nat) (actions_failed : Nat) (iteration : Nat)
  | report (timestamp : Int) (rep : Report) (iteration : Nat)
  deriving DecidableEq

/-- The iteration index recorded in a log entry. -/
def entryIter : LogEntry → Nat
  | LogEntry.plan _ _ i => i
  | LogEntry.act _ _ _ i => i
  | LogEntry.report _ _ i => i

/-- States of an autonomous agent (enum AgentState). -/
inductive AgentState
  | created
  | planning
  | acting
  | reporting
  | completed
  | error
  | stopped
  deriving DecidableEq

/-- Membership in the terminal-state list [COMPLETED, ERROR, STOPPED]
used by AutonomousAgent.stop. -/
def isTerminal : AgentState → Bool
  | AgentState.completed => true
  | AgentState.error => true
  | AgentState.stopped => true
  | _ => false

/-- The mutable fields of one AutonomousAgent instance. -/
structure Agent where
  agent_id : String
  name : String
  state : AgentState
  current_goal : Option String
  current_plan : List Action
  execution_log : List LogEntry
  error_message : Option String
  stop_requested : Bool
  running : Bool
  max_iterations : Nat
  timeout_seconds : Nat
  start_time : Option Int
  end_time : Option Int
  iterations_completed : Nat
  deriving DecidableEq

/-- The status snapshot returned by AutonomousAgent.get_status. -/
structure Status where
  agent_id : String
  name : String
  state : AgentState
  current_goal : Option String
  iterations_completed : Nat
  max_iterations : Nat
  elapsed_time : Int
  timeout_seconds : Nat
  error_message : Option String
  running : Bool
  execution_log_length : Nat
  deriving DecidableEq

/-- A tool executor: Python callable receiving one action. -/
abbrev ToolExec := Action → ActResult

/-- One read of time.time(): returns the clock value at the current
tick and advances the tick. -/
def readClock (clock : Nat → Int) (tick : Nat) : Int × Nat :=
  (clock tick, tick + 1)

/-- Python truthiness of an optional timestamp (None and 0 are falsy). -/
def truthyTime : Option Int → Bool
  | none => false
  | some t => t != 0

/-- Python truthiness of an optional goal string (None and the empty
string are falsy). -/
def truthyGoal : Option String → Bool
  | none => false
  | some g => g != ""

/-- Does the needle occur at the head of the haystack. -/
def subAt : List Char → List Char → Bool
  | [], _ => true
  | _ :: _, [] => false
  | a :: as, b :: bs => a == b && subAt as bs

/-- Python substring containment (needle in haystack). -/
def hasSub (needle : List Char) : List Char → Bool
  | [] => needle.isEmpty
  | b :: bs => subAt needle (b :: bs) || hasSub needle bs

/-- str.lower() on the character list of a string (ASCII lowering). -/
def pyLower (s : List Char) : List Char := s.map Char.toLower

/-- goal.lower() contains the given needle. -/
def goalHas (goal : String) (needle : String) : Bool :=
  hasSub needle.data (pyLower goal.data)

/-- AutonomousAgent._create_plan_for_goal: substring match on the
lowered goal selects a canned action sequence, else one generic action. -/
def create_plan_for_goal (goal : String) : List Action :=
  if goalHas goal "box" || goalHas goal "cube" then
    [⟨"CreateSketch", [("plane", PValue.str "xy")], none, none⟩,
     ⟨"DrawRectangle", [("width", PValue.num 10), ("depth", PValue.num 10)], none, none⟩,
     ⟨"Extrude", [("height", PValue.num 5)], none, none⟩]
  else if goalHas goal "circle" || goalHas goal "cylinder" then
    [⟨"CreateSketch", [("plane", PValue.str "xy")], none, none⟩,
     ⟨"DrawCircle", [("radius", PValue.num 5)], none, none⟩,
     ⟨"Extrude", [("height", PValue.num 10)], none, none⟩]
  else
    [⟨"CreateSketch", [("plane", PValue.str "xy")], none, none⟩]

/-- Fill a status snapshot from the agent fields plus the computed
elapsed time (AutonomousAgent.get_status return dictionary). -/
def mkStatus (a : Agent) (elapsed : Int) : Status :=
  { agent_id := a.agent_id
    name := a.name
    state := a.state
    current_goal := a.current_goal
    iterations_completed := a.iterations_completed
    max_iterations := a.max_iterations
    elapsed_time := elapsed
    timeout_seconds := a.timeout_seconds
    error_message := a.error_message
    running := a.running
    execution_log_length := a.execution_log.length }

/-- AutonomousAgent.get_status: elapsed_time is 0 without a truthy
start_time, otherwise (end_time or now) - start_time. -/
def get_status (clock : Nat → Int) (a : Agent) (tick : Nat) : Status × Nat :=
  if truthyTime a.start_time then
    let s := a.start_time.getD 0
    if truthyTime a.end_time then
      (mkStatus a (a.end_time.getD 0 - s), tick)
    else
      let rc := readClock clock tick
      (mkStatus a (rc.1 - s), rc.2)
  else
    (mkStatus a 0, tick)

/-- AutonomousAgent.start: raises if already running, otherwise resets
goal, state, stop flag, start time, error, log and iteration counter
(and nothing else) and returns a fresh snapshot. -/
def start (clock : Nat → Int) (a : Agent) (goal : String) (tick : Nat) :
    Except String Status × Agent × Nat :=
  if a.running then
    (Except.error "Agent is already running", a, tick)
  else
    let rc := readClock clock tick
    let a₁ := { a with
      current_goal := some goal
      state := AgentState.planning
      stop_requested := false
      start_time := some rc.1
      error_message := none
      execution_log := []
      iterations_completed := 0 }
    let gs := get_status clock a₁ rc.2
    (Except.ok gs.1, a₁, gs.2)

/-- AutonomousAgent.stop: always sets the stop flag; when the state is
non-terminal also moves to STOPPED with end_time = now; returns a
snapshot. -/
def stop (clock : Nat → Int) (a : Agent) (tick : Nat) : Status × Agent × Nat :=
  let a₁ := { a with stop_requested := true }
  if isTerminal a₁.state then
    let gs := get_status clock a₁ tick
    (gs.1, a₁, gs.2)
  else
    let rc := readClock clock tick
    let a₂ := { a₁ with state := AgentState.stopped, end_time := some rc.1 }
    let gs := get_status clock a₂ rc.2
    (gs.1, a₂, gs.2)

/-- AutonomousAgent._check_timeout: True when no start time is recorded,
otherwise elapsed < timeout_seconds. -/
def check_timeout (clock : Nat → Int) (a : Agent) (tick : Nat) : Bool × Nat :=
  match a.start_time with
  | none => (true, tick)
  | some s =>
    let rc := readClock clock tick
    (decide (rc.1 - s < (a.timeout_seconds : Int)), rc.2)

/-- AutonomousAgent._should_stop: stop flag, ERROR state, or timeout
(with Python short-circuit evaluation: the clock is only read when the
first two tests are false). -/
def should_stop (clock : Nat → Int) (a : Agent) (tick : Nat) : Bool × Nat :=
  if a.stop_requested || a.state == AgentState.error then
    (true, tick)
  else
    let ct := check_timeout clock a tick
    (!ct.1, ct.2)

/-- AutonomousAgent._execute_action: uses the provided tool executor, or
the simulated result when none was supplied. -/
def execute_action (exec : Option ToolExec) (ac : Action) : ActResult :=
  match exec with
  | some f => f ac
  | none =>
    ActResult.ok
      [("status", PValue.str "simulated"),
       ("action", PValue.str ac.action),
       ("message", PValue.str ("Simulated execution of " ++ ac.action))]

/-- The per-action body of the act phase: invoke the executor and mark
the action completed with its result or error with the failure text. -/
def apply_action (exec : Option ToolExec) (ac : Action) : Action :=
  match execute_action exec ac with
  | ActResult.ok r => { ac with result := some (ActResult.ok r), status := some "completed" }
  | ActResult.err e => { ac with result := some (ActResult.err e), status := some "error" }

/-- The for-loop of the act phase: re-check _should_stop before every
action (break early), otherwise execute and annotate the action. The
agent argument carries the fields _should_stop reads; they do not change
during the loop. -/
def act_loop (clock : Nat → Int) (exec : Option ToolExec) (a : Agent) :
    List Action → List Action → Nat → List Action × Nat
  | done, [], tick => (done, tick)
  | done, ac :: rest, tick =>
    let ss := should_stop clock a tick
    if ss.1 then
      (done ++ ac :: rest, ss.2)
    else
      act_loop clock exec a (done ++ [apply_action exec ac]) rest ss.2

/-- AutonomousAgent._plan_phase: state to PLANNING, build the plan from
the goal, append a plan log entry. (The goal is non-None here because
run_loop guards on a truthy goal before any phase runs.) -/
def plan_phase (clock : Nat → Int) (a : Agent) (tick : Nat) : Agent × Nat :=
  let a₁ := { a with state := AgentState.planning }
  let plan₁ := create_plan_for_goal (a₁.current_goal.getD "")
  let a₂ := { a₁ with current_plan := plan₁ }
  let rc := readClock clock tick
  ({ a₂ with execution_log :=
      a₂.execution_log ++ [LogEntry.plan rc.1 plan₁ a₂.iterations_completed] }, rc.2)

/-- AutonomousAgent._act_phase: state to ACTING, run the per-action
loop, then append an act log entry counting completed and failed
actions over the whole (updated) plan. -/
def act_phase (clock : Nat → Int) (exec : Option ToolExec) (a : Agent) (tick : Nat) :
    Agent × Nat :=
  let a₁ := { a with state := AgentState.acting }
  let al := act_loop clock exec a₁ [] a₁.current_plan tick
  let a₂ := { a₁ with current_plan := al.1 }
  let rc := readClock clock al.2
  ({ a₂ with execution_log := a₂.execution_log ++
      [LogEntry.act rc.1
        ((al.1.filter (fun x => x.status == some "completed")).length)
        ((al.1.filter (fun x => x.status == some "error")).length)
        a₂.iterations_completed] }, rc.2)

/-- AutonomousAgent._report_phase: state to REPORTING, compute the
report from the action statuses, append a report log entry. -/
def report_phase (clock : Nat → Int) (a : Agent) (tick : Nat) :
    Report × Agent × Nat :=
  let a₁ := { a with state := AgentState.reporting }
  let completed := (a₁.current_plan.filter (fun x => x.status == some "completed")).length
  let total := a₁.current_plan.length
  let r : Report :=
    { goal_completed := decide (0 < total) && (completed == total)
      actions_completed := completed
      total_actions := total
      success_rate := if 0 < total then (completed : ℚ) / (total : ℚ) else 0
      iteration := a₁.iterations_completed }
  let rc := readClock clock tick
  (r, { a₁ with execution_log :=
      a₁.execution_log ++ [LogEntry.report rc.1 r a₁.iterations_completed] }, rc.2)

/-- The final-state determination after the while loop of
AutonomousAgent.run_loop (lines 167-175): exhaustion of max_iterations
is a non-error COMPLETED, a failed timeout check becomes ERROR with a
fixed message (the timeout check runs only when iterations remain, per
Python elif short-circuiting). -/
def final_determination (clock : Nat → Int) (a : Agent) (tick : Nat) : Agent × Nat :=
  if !a.stop_requested && !(a.state == AgentState.completed) then
    if a.max_iterations ≤ a.iterations_completed then
      ({ a with state := AgentState.completed }, tick)
    else
      let ct := check_timeout clock a tick
      if !ct.1 then
        ({ a with state := AgentState.error,
                  error_message := some "Execution timeout exceeded" }, ct.2)
      else
        (a, ct.2)
  else
    (a, tick)

/-- The while loop of AutonomousAgent.run_loop, written with explicit
fuel; the loop body either breaks or increments iterations_completed, so
fuel max_iterations + 1 (as supplied by run_loop) can never run out while
the loop guard still holds. The guard reads the clock (timeout check)
only after the first two conjuncts pass, as in Python. -/
def run_loop_while (clock : Nat → Int) (exec : Option ToolExec) :
    Nat → Agent → Nat → Agent × Nat
  | 0, a, tick => (a, tick)
  | fuel + 1, a, tick =>
    if a.iterations_completed < a.max_iterations && !a.stop_requested then
      let ct := check_timeout clock a tick
      if ct.1 then
        let pp := plan_phase clock a ct.2
        let s₁ := should_stop clock pp.1 pp.2
        if s₁.1 then
          (pp.1, s₁.2)
        else
          let ap := act_phase clock exec pp.1 s₁.2
          let s₂ := should_stop clock ap.1 ap.2
          if s₂.1 then
            (ap.1, s₂.2)
          else
            let rp := report_phase clock ap.1 s₂.2
            let s₃ := should_stop clock rp.2.1 rp.2.2
            if s₃.1 then
              (rp.2.1, s₃.2)
            else if rp.1.goal_completed then
              ({ rp.2.1 with state := AgentState.completed }, s₃.2)
            else
              run_loop_while clock exec fuel
                { rp.2.1 with iterations_completed := rp.2.1.iterations_completed + 1 } s₃.2
      else
        (a, ct.2)
    else
      (a, tick)

/-- AutonomousAgent.run_loop: the missing-goal guard raises before the
try block (so before _running is set and before the finalization point);
otherwise the loop runs, the final state is determined, and the finally
block sets running := false and end_time := now exactly once before the
closing get_status. -/
def run_loop (clock : Nat → Int) (exec : Option ToolExec) (a : Agent) (tick : Nat) :
    Except String Status × Agent × Nat :=
  if !truthyGoal a.current_goal then
    (Except.error "No goal set for the agent", a, tick)
  else
    let a₁ := { a with running := true }
    let lw := run_loop_while clock exec (a₁.max_iterations + 1) a₁ tick
    let fd := final_determination clock lw.1 lw.2
    let rc := readClock clock fd.2
    let a₄ := { fd.1 with running := false, end_time := some rc.1 }
    let gs := get_status clock a₄ rc.2
    (Except.ok gs.1, a₄, gs.2)

/-- AgentFactory._run_agent_loop: awaits run_loop and absorbs any
escaping failure (it is only logged), so the background task never
propagates one to the spawning caller. -/
def run_agent_loop (clock : Nat → Int) (exec : Option ToolExec) (a : Agent) (tick : Nat) :
    Agent × Nat :=
  (run_loop clock exec a tick).2

/-- Events observable while AgentRegistry.stop_all_agents runs: lock
acquisition and release of the registry mutex, and calls into
agent.stop(). -/
inductive RegEvent
  | lockAcquire
  | lockRelease
  | stopCall (agent_id : String)
  deriving DecidableEq

/-- The body of the for-loop of AgentRegistry.stop_all_agents: every
registered agent with a truthy _running attribute is stopped and its id
collected, in registry order; each stop call emits a stopCall event. -/
def stop_all_go (clock : Nat → Int) :
    List (String × Agent) → Nat →
      List String × List (String × Agent) × List RegEvent × Nat
  | [], tick => ([], [], [], tick)
  | (i, ag) :: rest, tick =>
    if ag.running then
      let sp := stop clock ag tick
      let go := stop_all_go clock rest sp.2.2
      (i :: go.1, (i, sp.2.1) :: go.2.1, RegEvent.stopCall i :: go.2.2.1, go.2.2.2)
    else
      let go := stop_all_go clock rest tick
      (go.1, (i, ag) :: go.2.1, go.2.2.1, go.2.2.2)

/-- AgentRegistry.stop_all_agents: the whole for-loop, including every
agent.stop() call, executes inside the `with self._lock` block, so the
event trace is lockAcquire, the stop calls, lockRelease. -/
def stop_all_agents (clock : Nat → Int) (reg : List (String × Agent)) (tick : Nat) :
    List String × List (String × Agent) × List RegEvent × Nat :=
  let go := stop_all_go clock reg tick
  (go.1, go.2.1, RegEvent.lockAcquire :: (go.2.2.1 ++ [RegEvent.lockRelease]), go.2.2.2)

/-- Scan an event trace keeping the lock depth: true when no stopCall
happens while the registry lock is held. -/
def noStopWhileLocked : List RegEvent → Nat → Bool
  | [], _ => true
  | RegEvent.lockAcquire :: es, d => noStopWhileLocked es (d + 1)
  | RegEvent.lockRelease :: es, d => noStopWhileLocked es (d - 1)
  | RegEvent.stopCall _ :: es, d => (d == 0) && noStopWhileLocked es d

/-- Shape of a log entry produced by an iteration in which every action
failed: act entries count zero completed and at least one failed action,
report entries carry goal_completed = false. -/
def entryFailShape : LogEntry → Bool
  | LogEntry.plan _ _ _ => true
  | LogEntry.act _ ex fl _ => ex == 0 && decide (0 < fl)
  | LogEntry.report _ r _ => !r.goal_completed

/-- The agent fields that a single plan, act or report phase leaves
untouched. -/
structure PhaseFrame (a b : Agent) : Prop where
  iters : b.iterations_completed = a.iterations_completed
  maxIt : b.max_iterations = a.max_iterations
  stopReq : b.stop_requested = a.stop_requested
  startT : b.start_time = a.start_time
  timeoutS : b.timeout_seconds = a.timeout_seconds
  goal : b.current_goal = a.current_goal
  runningF : b.running = a.running
  endT : b.end_time = a.end_time

/-- Concrete fixtures used by witness and counterexample theorems. -/
def clk1 : Nat → Int := fun _ => 1

/-- A clock that always reads 100. -/
def clk100 : Nat → Int := fun _ => 100

/-- A tool executor whose every invocation fails. -/
def failExec : ToolExec := fun _ => ActResult.err "tool failure"

/-- A pending generic action. -/
def sampleAction : Action := ⟨"CreateSketch", [("plane", PValue.str "xy")], none, none⟩

/-- An idle agent carrying leftovers of a finished run: a stale plan and
a stale end time. -/
def staleAgent : Agent :=
  { agent_id := "agent_1"
    name := "CAD"
    state := AgentState.completed
    current_goal := some "old goal"
    current_plan := [sampleAction]
    execution_log := []
    error_message := none
    stop_requested := true
    running := false
    max_iterations := 10
    timeout_seconds := 300
    start_time := some 10
    end_time := some 50
    iterations_completed := 10 }

/-- A running agent registered under id a. -/
def agentA : Agent :=
  { agent_id := "a"
    name := "A"
    state := AgentState.acting
    current_goal := some "build a box"
    current_plan := []
    execution_log := []
    error_message := none
    stop_requested := false
    running := true
    max_iterations := 10
    timeout_seconds := 300
    start_time := some 1
    end_time := none
    iterations_completed := 0 }

/-- A second running agent registered under id b. -/
def agentB : Agent := { agentA with agent_id := "b", name := "B" }

/-- A registry holding the two running agents. -/
def regAB : List (String × Agent) := [("a", agentA), ("b", agentB)]

/-- A freshly started agent about to execute its loop. -/
def freshAgent : Agent :=
  { agentA with
    agent_id := "f"
    name := "F"
    state := AgentState.planning
    current_goal := some "make a box"
    max_iterations := 2 }

/-- A mid-run agent whose timeout is already exceeded. -/
def timeoutAgent : Agent :=
  { freshAgent with state := AgentState.reporting, timeout_seconds := 0, max_iterations := 5 }

/-- An agent with no goal set. -/
def goallessAgent : Agent :=
  { freshAgent with agent_id := "g", current_goal := none, running := false, start_time := none }

/-- An agent whose plan holds one completed and one pending action. -/
def reportAgent : Agent :=
  { staleAgent with current_plan :=
      [{ sampleAction with status := some "completed" }, sampleAction] }

/-- A tool executor succeeding on CreateSketch and failing on everything
else. -/
def mixedExec : ToolExec := fun ac =>
  if ac.action == "CreateSketch" then ActResult.ok [] else ActResult.err "boom"

/-- A running agent holding the three-action box plan. -/
def actAgent : Agent :=
  { agentA with current_plan := create_plan_for_goal "build a box" }

/-- A clock whose first reading is inside the timeout window and whose
later readings are far beyond it. -/
def clkStep : Nat → Int := fun n => if n = 0 then 1 else 1000

/-- A running agent with a two-action plan. -/
def ctrAgent : Agent :=
  { agentA with current_plan := [sampleAction, sampleAction] }

end FusionAgent

namespace FusionAgent

/-- Every plan built from a goal is non-empty: each branch of the
goal-to-plan mapping returns an explicit non-empty list. -/
theorem create_plan_ne_nil (goal : String) : create_plan_for_goal goal ≠ [] := by
  unfold create_plan_for_goal
  split
  · simp
  · split <;> simp

/-- Claim C4: every goal yields a non-empty plan; a goal whose lowered
text contains none of box, cube, circle, cylinder yields exactly the one
generic CreateSketch action; and the goal "build a box" yields exactly
CreateSketch, DrawRectangle, Extrude in that order. -/
theorem c4_create_plan_shape :
    (∀ goal : String, create_plan_for_goal goal ≠ [])
    ∧ (∀ goal : String,
        goalHas goal "box" = false → goalHas goal "cube" = false →
        goalHas goal "circle" = false → goalHas goal "cylinder" = false →
        create_plan_for_goal goal =
          [⟨"CreateSketch", [("plane", PValue.str "xy")], none, none⟩])
    ∧ create_plan_for_goal "build a box" =
        [⟨"CreateSketch", [("plane", PValue.str "xy")], none, none⟩,
         ⟨"DrawRectangle", [("width", PValue.num 10), ("depth", PValue.num 10)], none, none⟩,
         ⟨"Extrude", [("height", PValue.num 5)], none, none⟩] := by
  refine ⟨?_, ?_, ?_⟩
  · exact create_plan_ne_nil
  · intro goal h1 h2 h3 h4
    unfold create_plan_for_goal
    simp [h1, h2, h3, h4]
  · decide

/-- Witness for C4: the goal "hello" matches no recognized substring and
receives exactly the generic one-action plan. -/
theorem c4_create_plan_shape_witness :
    create_plan_for_goal "hello" =
      [⟨"CreateSketch", [("plane", PValue.str "xy")], none, none⟩] :=
  c4_create_plan_shape.2.1 "hello" (by decide) (by decide) (by decide) (by decide)

/-- Claim C2 counterexample: start succeeds on a non-running agent whose
previous run left a non-empty plan, and the prior currentPlan is not
cleared by start. -/
theorem c2_start_counterexample :
    staleAgent.running = false
    ∧ staleAgent.current_plan ≠ []
    ∧ (start clk100 staleAgent "new goal" 0).2.1.current_plan ≠ [] := by
  refine ⟨rfl, by decide, by decide⟩

/-- Claim C2 amended: start fails with the already-running error exactly
when the loop task is active (running = true) and otherwise resets goal,
state, stop flag, start time, error, log and iteration counter and
returns an immediate snapshot, while leaving current_plan (and end_time)
unchanged. -/
theorem c2_start_behavior (clock : Nat → Int) (a : Agent) (goal : String) (tick : Nat) :
    ((start clock a goal tick).1 = Except.error "Agent is already running" ↔
      a.running = true)
    ∧ (a.running = true → (start clock a goal tick).2.1 = a)
    ∧ (a.running = false →
        (start clock a goal tick).2.1 =
          { a with current_goal := some goal
                   state := AgentState.planning
                   stop_requested := false
                   start_time := some (clock tick)
                   error_message := none
                   execution_log := []
                   iterations_completed := 0 }
        ∧ (start clock a goal tick).1 =
            Except.ok (get_status clock (start clock a goal tick).2.1 (tick + 1)).1) := by
  refine ⟨?_, ?_, ?_⟩
  · cases h : a.running <;> simp [start, h]
  · intro h
    simp [start, h]
  · intro h
    refine ⟨?_, ?_⟩ <;> simp [start, h, readClock]

/-- Witness for C2: the concrete stale agent is not running, so start
succeeds and produces exactly the reset fields (stale plan and end time
kept). -/
theorem c2_start_behavior_witness :
    (start clk100 staleAgent "new goal" 0).2.1 =
      { staleAgent with
        current_goal := some "new goal"
        state := AgentState.planning
        stop_requested := false
        start_time := some 100
        error_message := none
        execution_log := []
        iterations_completed := 0 } :=
  ((c2_start_behavior clk100 staleAgent "new goal" 0).2.2 rfl).1

/-- Claim C3: the report computed by the report phase satisfies the
goalCompleted equivalence and the successRate equations over the action
statuses of the current plan. -/
theorem c3_report_equations (clock : Nat → Int) (a : Agent) (tick : Nat) :
    ((report_phase clock a tick).1.total_actions = a.current_plan.length)
    ∧ ((report_phase clock a tick).1.actions_completed =
        (a.current_plan.filter (fun x => x.status == some "completed")).length)
    ∧ ((report_phase clock a tick).1.goal_completed = true ↔
        0 < (report_phase clock a tick).1.total_actions
        ∧ (report_phase clock a tick).1.actions_completed =
            (report_phase clock a tick).1.total_actions)
    ∧ (0 < (report_phase clock a tick).1.total_actions →
        (report_phase clock a tick).1.success_rate =
          ((report_phase clock a tick).1.actions_completed : ℚ) /
            ((report_phase clock a tick).1.total_actions : ℚ))
    ∧ ((report_phase clock a tick).1.total_actions = 0 →
        (report_phase clock a tick).1.success_rate = 0) := by
  refine ⟨rfl, rfl, ?_, ?_, ?_⟩
  · simp [report_phase]
  · intro h
    simp only [report_phase] at h ⊢
    simp only [if_pos h]
  · intro h
    simp only [report_phase] at h ⊢
    simp [h]

/-- Witness for C3: on a two-action plan with one completed action the
report has a success rate of one half and goalCompleted false. -/
theorem c3_report_equations_witness :
    (report_phase clk1 reportAgent 0).1.success_rate =
      ((report_phase clk1 reportAgent 0).1.actions_completed : ℚ) /
        ((report_phase clk1 reportAgent 0).1.total_actions : ℚ) :=
  (c3_report_equations clk1 reportAgent 0).2.2.2.1 (by decide)

/-- Claim C10: start leaves endTime and currentPlan untouched, so a
status read during the restarted run computes elapsedTime as the stale
prior endTime minus the new startTime (possibly negative) until the loop
finalization overwrites endTime. -/
theorem c10_stale_end_time (clock : Nat → Int) (a : Agent) (goal : String)
    (tick tick₂ : Nat) (e : Int)
    (h : a.running = false) (he : a.end_time = some e) (he0 : e ≠ 0)
    (hc : clock tick ≠ 0) :
    (start clock a goal tick).2.1.end_time = some e
    ∧ (start clock a goal tick).2.1.current_plan = a.current_plan
    ∧ (get_status clock (start clock a goal tick).2.1 tick₂).1.elapsed_time =
        e - clock tick := by
  refine ⟨?_, ?_, ?_⟩ <;>
    simp [start, h, get_status, readClock, truthyTime, he, he0, hc, mkStatus]

/-- Witness for C10: restarting the stale agent (stale endTime 50) at
clock time 100 yields a negative elapsed time of -50. -/
theorem c10_stale_end_time_witness :
    (get_status clk100 (start clk100 staleAgent "new goal" 0).2.1 7).1.elapsed_time = -50
    ∧ (get_status clk100 (start clk100 staleAgent "new goal" 0).2.1 7).1.elapsed_time < 0 := by
  have h := c10_stale_end_time clk100 staleAgent "new goal" 0 7 50 rfl rfl
    (by decide) (by decide)
  exact ⟨h.2.2, by rw [h.2.2]; decide⟩

/-- A status snapshot always carries the current state field, whichever
branch of the elapsed-time computation is taken. -/
theorem get_status_state (clock : Nat → Int) (a : Agent) (tick : Nat) :
    (get_status clock a tick).1.state = a.state := by
  simp only [get_status]
  split
  · split <;> rfl
  · rfl

/-- Stopping an agent that is already terminal with the stop flag set
returns the existing snapshot and leaves the agent unchanged. -/
theorem stop_terminal_noop (clock : Nat → Int) (b : Agent) (tick : Nat)
    (hb : isTerminal b.state = true) (hs : b.stop_requested = true) :
    stop clock b tick =
      ((get_status clock b tick).1, b, (get_status clock b tick).2) := by
  have h1 : ({ b with stop_requested := true } : Agent) = b := by
    cases b
    simp_all
  simp only [stop, h1, hb, if_true]

/-- Claim C7: stop always sets stopRequested; from a non-terminal state
it moves to STOPPED with endTime = now; from a terminal state it changes
no field except stopRequested and returns the existing snapshot; and
after a first stop from a non-terminal state a second stop leaves the
agent unchanged, both snapshots showing state STOPPED. -/
theorem c7_stop_idempotent (clock : Nat → Int) (a : Agent) (tick tick₂ : Nat) :
    (stop clock a tick).2.1.stop_requested = true
    ∧ (isTerminal a.state = false →
        (stop clock a tick).2.1.state = AgentState.stopped
        ∧ (stop clock a tick).2.1.end_time = some (clock tick)
        ∧ (stop clock a tick).1.state = AgentState.stopped)
    ∧ (isTerminal a.state = true →
        (stop clock a tick).2.1 = { a with stop_requested := true }
        ∧ (stop clock a tick).1 =
            (get_status clock { a with stop_requested := true } tick).1)
    ∧ (isTerminal a.state = false →
        (stop clock (stop clock a tick).2.1 tick₂).2.1 = (stop clock a tick).2.1
        ∧ (stop clock (stop clock a tick).2.1 tick₂).1.state = AgentState.stopped) := by
  refine ⟨?_, ?_, ?_, ?_⟩
  · simp only [stop]
    split <;> simp
  · intro h
    refine ⟨?_, ?_, ?_⟩ <;> simp [stop, h, readClock, get_status_state]
  · intro h
    refine ⟨?_, ?_⟩ <;> simp [stop, h]
  · intro h
    have h1 : (stop clock a tick).2.1 =
        { a with stop_requested := true, state := AgentState.stopped,
                 end_time := some (clock tick) } := by
      simp [stop, h, readClock]
    have hterm : isTerminal ((stop clock a tick).2.1).state = true := by
      rw [h1]
      rfl
    have hreq : ((stop clock a tick).2.1).stop_requested = true := by
      rw [h1]
    have h3 := stop_terminal_noop clock ((stop clock a tick).2.1) tick₂ hterm hreq
    refine ⟨?_, ?_⟩
    · rw [h3]
    · rw [h3, get_status_state, h1]

/-- Witness for C7: stopping the running agent a moves it to STOPPED and
a second stop returns a STOPPED snapshot again without further change. -/
theorem c7_stop_idempotent_witness :
    (stop clk1 agentA 0).2.1.state = AgentState.stopped
    ∧ (stop clk1 (stop clk1 agentA 0).2.1 5).1.state = AgentState.stopped :=
  ⟨((c7_stop_idempotent clk1 agentA 0 5).2.1 rfl).1,
   ((c7_stop_idempotent clk1 agentA 0 5).2.2.2 rfl).2⟩

/-- Claim C1 evaluation: on a registry holding the two running agents a
and b, stop_all_agents stops both and returns both ids, but every stop
call is issued while the registry lock is held (the trace refutes the
snapshot-then-stop-outside-the-lock ordering). -/
theorem c1_stop_all_lock_eval :
    (stop_all_agents clk1 regAB 0).1 = ["a", "b"]
    ∧ ((stop_all_agents clk1 regAB 0).2.1.map (fun p => p.2.state)) =
        [AgentState.stopped, AgentState.stopped]
    ∧ (stop_all_agents clk1 regAB 0).2.2.1 =
        [RegEvent.lockAcquire, RegEvent.stopCall "a", RegEvent.stopCall "b",
         RegEvent.lockRelease]
    ∧ noStopWhileLocked (stop_all_agents clk1 regAB 0).2.2.1 0 = false := by
  refine ⟨by decide, by decide, by decide, by decide⟩

/-- Closed form of the plan phase. -/
theorem plan_phase_eq (clock : Nat → Int) (a : Agent) (tick : Nat) :
    plan_phase clock a tick =
      ({ a with state := AgentState.planning,
                current_plan := create_plan_for_goal (a.current_goal.getD ""),
                execution_log := a.execution_log ++
                  [LogEntry.plan (clock tick)
                    (create_plan_for_goal (a.current_goal.getD ""))
                    a.iterations_completed] },
       tick + 1) := rfl

/-- Closed form of the report phase on the agent and tick components. -/
theorem report_phase_eq (clock : Nat → Int) (a : Agent) (tick : Nat) :
    report_phase clock a tick =
      ((report_phase clock a tick).1,
       { a with state := AgentState.reporting,
                execution_log := a.execution_log ++
                  [LogEntry.report (clock tick) (report_phase clock a tick).1
                    a.iterations_completed] },
       tick + 1) := rfl

/-- The plan phase does not touch the frame fields. -/
theorem plan_phase_frame (clock : Nat → Int) (a : Agent) (tick : Nat) :
    PhaseFrame a (plan_phase clock a tick).1 :=
  ⟨rfl, rfl, rfl, rfl, rfl, rfl, rfl, rfl⟩

/-- The act phase does not touch the frame fields. -/
theorem act_phase_frame (clock : Nat → Int) (exec : Option ToolExec) (a : Agent) (tick : Nat) :
    PhaseFrame a (act_phase clock exec a tick).1 :=
  ⟨rfl, rfl, rfl, rfl, rfl, rfl, rfl, rfl⟩

/-- The report phase does not touch the frame fields. -/
theorem report_phase_frame (clock : Nat → Int) (a : Agent) (tick : Nat) :
    PhaseFrame a (report_phase clock a tick).2.1 :=
  ⟨rfl, rfl, rfl, rfl, rfl, rfl, rfl, rfl⟩

/-- Frame preservation composes. -/
theorem PhaseFrame.comp {a b c : Agent} (h₁ : PhaseFrame a b) (h₂ : PhaseFrame b c) :
    PhaseFrame a c :=
  ⟨h₂.iters.trans h₁.iters, h₂.maxIt.trans h₁.maxIt, h₂.stopReq.trans h₁.stopReq,
   h₂.startT.trans h₁.startT, h₂.timeoutS.trans h₁.timeoutS, h₂.goal.trans h₁.goal,
   h₂.runningF.trans h₁.runningF, h₂.endT.trans h₁.endT⟩

/-- Every log entry after the plan phase is an old entry or records the
current iteration index. -/
theorem plan_phase_log_mem (clock : Nat → Int) (a : Agent) (tick : Nat) :
    ∀ e ∈ (plan_phase clock a tick).1.execution_log,
      e ∈ a.execution_log ∨ entryIter e = a.iterations_completed := by
  intro e he
  rw [plan_phase_eq] at he
  simp only [List.mem_append, List.mem_singleton] at he
  rcases he with h | h
  · exact Or.inl h
  · subst h
    exact Or.inr rfl

/-- The act phase appends exactly one act entry carrying the current
iteration index. -/
theorem act_phase_log_shape (clock : Nat → Int) (exec : Option ToolExec)
    (a : Agent) (tick : Nat) :
    ∃ t ex fl, (act_phase clock exec a tick).1.execution_log =
      a.execution_log ++ [LogEntry.act t ex fl a.iterations_completed] :=
  ⟨_, _, _, rfl⟩

/-- Every log entry after the act phase is an old entry or records the
current iteration index. -/
theorem act_phase_log_mem (clock : Nat → Int) (exec : Option ToolExec)
    (a : Agent) (tick : Nat) :
    ∀ e ∈ (act_phase clock exec a tick).1.execution_log,
      e ∈ a.execution_log ∨ entryIter e = a.iterations_completed := by
  obtain ⟨t, ex, fl, hl⟩ := act_phase_log_shape clock exec a tick
  intro e he
  rw [hl] at he
  simp only [List.mem_append, List.mem_singleton] at he
  rcases he with h | h
  · exact Or.inl h
  · subst h
    exact Or.inr rfl

/-- Every log entry after the report phase is an old entry or records
the current iteration index. -/
theorem report_phase_log_mem (clock : Nat → Int) (a : Agent) (tick : Nat) :
    ∀ e ∈ (report_phase clock a tick).2.1.execution_log,
      e ∈ a.execution_log ∨ entryIter e = a.iterations_completed := by
  intro e he
  rw [report_phase_eq] at he
  simp only [List.mem_append, List.mem_singleton] at he
  rcases he with h | h
  · exact Or.inl h
  · subst h
    exact Or.inr rfl

/-- Chaining two log-extension steps across an iteration-preserving
phase. -/
theorem log_mem_comp {x y z : Agent}
    (hxy : ∀ e ∈ y.execution_log, e ∈ x.execution_log ∨ entryIter e = x.iterations_completed)
    (hyz : ∀ e ∈ z.execution_log, e ∈ y.execution_log ∨ entryIter e = y.iterations_completed)
    (hiter : y.iterations_completed = x.iterations_completed) :
    ∀ e ∈ z.execution_log, e ∈ x.execution_log ∨ entryIter e = x.iterations_completed := by
  intro e he
  rcases hyz e he with h | h
  · exact hxy e h
  · exact Or.inr (h.trans hiter)

/-- A leaf of the loop-body case analysis satisfies the iteration
invariant. -/
theorem inv_of_frame {a b : Agent} (hf : PhaseFrame a b)
    (hmem : ∀ e ∈ b.execution_log, e ∈ a.execution_log ∨ entryIter e = a.iterations_completed)
    (h : a.iterations_completed ≤ a.max_iterations)
    (hlt : a.iterations_completed < a.max_iterations) :
    a.iterations_completed ≤ b.iterations_completed
    ∧ b.iterations_completed ≤ a.max_iterations
    ∧ b.max_iterations = a.max_iterations
    ∧ ∀ e ∈ b.execution_log, e ∈ a.execution_log ∨ entryIter e < a.max_iterations := by
  refine ⟨hf.iters.ge, hf.iters ▸ h, hf.maxIt, ?_⟩
  intro e he
  rcases hmem e he with h' | h'
  · exact Or.inl h'
  · exact Or.inr (h' ▸ hlt)

/-- Invariant of the while loop of run_loop: the iteration counter never
decreases, never exceeds max_iterations, max_iterations is preserved,
and every appended log entry records an iteration index strictly below
max_iterations (it is appended only while the loop guard holds). -/
theorem run_loop_while_invariant (clock : Nat → Int) (exec : Option ToolExec) :
    ∀ (fuel : Nat) (a : Agent) (tick : Nat),
      a.iterations_completed ≤ a.max_iterations →
      a.iterations_completed ≤ (run_loop_while clock exec fuel a tick).1.iterations_completed
      ∧ (run_loop_while clock exec fuel a tick).1.iterations_completed ≤ a.max_iterations
      ∧ (run_loop_while clock exec fuel a tick).1.max_iterations = a.max_iterations
      ∧ ∀ e ∈ (run_loop_while clock exec fuel a tick).1.execution_log,
          e ∈ a.execution_log ∨ entryIter e < a.max_iterations := by
  intro fuel
  induction fuel with
  | zero =>
    intro a tick h
    exact ⟨le_refl _, h, rfl, fun e he => Or.inl he⟩
  | succ n ih =>
    intro a tick h
    by_cases hg : (decide (a.iterations_completed < a.max_iterations)
        && !a.stop_requested) = true
    case neg =>
      have hres : run_loop_while clock exec (n + 1) a tick = (a, tick) := by
        rw [run_loop_while, if_neg hg]
      rw [hres]
      exact ⟨le_refl _, h, rfl, fun e he => Or.inl he⟩
    case pos =>
      have hg' := hg
      simp only [Bool.and_eq_true, decide_eq_true_eq, Bool.not_eq_true'] at hg'
      obtain ⟨hlt, hstop⟩ := hg'
      by_cases hct : (check_timeout clock a tick).1 = true
      case neg =>
        have hres : run_loop_while clock exec (n + 1) a tick =
            (a, (check_timeout clock a tick).2) := by
          rw [run_loop_while, if_pos hg]
          dsimp only
          rw [if_neg hct]
        rw [hres]
        exact ⟨le_refl _, h, rfl, fun e he => Or.inl he⟩
      case pos =>
        set pp := plan_phase clock a (check_timeout clock a tick).2 with hppd
        have hfp : PhaseFrame a pp.1 := plan_phase_frame clock a _
        have hmp : ∀ e ∈ pp.1.execution_log,
            e ∈ a.execution_log ∨ entryIter e = a.iterations_completed :=
          plan_phase_log_mem clock a _
        by_cases hs1 : (should_stop clock pp.1 pp.2).1 = true
        case pos =>
          have hres : run_loop_while clock exec (n + 1) a tick =
              (pp.1, (should_stop clock pp.1 pp.2).2) := by
            rw [run_loop_while, if_pos hg]
            dsimp only
            rw [if_pos hct, if_pos hs1]
          rw [hres]
          exact inv_of_frame hfp hmp h hlt
        case neg =>
          set ap := act_phase clock exec pp.1 (should_stop clock pp.1 pp.2).2 with hapd
          have hfa : PhaseFrame a ap.1 := hfp.comp (act_phase_frame clock exec pp.1 _)
          have hma : ∀ e ∈ ap.1.execution_log,
              e ∈ a.execution_log ∨ entryIter e = a.iterations_completed :=
            log_mem_comp hmp (act_phase_log_mem clock exec pp.1 _) hfp.iters
          by_cases hs2 : (should_stop clock ap.1 ap.2).1 = true
          case pos =>
            have hres : run_loop_while clock exec (n + 1) a tick =
                (ap.1, (should_stop clock ap.1 ap.2).2) := by
              rw [run_loop_while, if_pos hg]
              dsimp only
              rw [if_pos hct, if_neg hs1, if_pos hs2]
            rw [hres]
            exact inv_of_frame hfa hma h hlt
          case neg =>
            set rp := report_phase clock ap.1 (should_stop clock ap.1 ap.2).2 with hrpd
            have hfr : PhaseFrame a rp.2.1 := hfa.comp (report_phase_frame clock ap.1 _)
            have hmr : ∀ e ∈ rp.2.1.execution_log,
                e ∈ a.execution_log ∨ entryIter e = a.iterations_completed :=
              log_mem_comp hma (report_phase_log_mem clock ap.1 _) hfa.iters
            by_cases hs3 : (should_stop clock rp.2.1 rp.2.2).1 = true
            case pos =>
              have hres : run_loop_while clock exec (n + 1) a tick =
                  (rp.2.1, (should_stop clock rp.2.1 rp.2.2).2) := by
                rw [run_loop_while, if_pos hg]
                dsimp only
                rw [if_pos hct, if_neg hs1, if_neg hs2, if_pos hs3]
              rw [hres]
              exact inv_of_frame hfr hmr h hlt
            case neg =>
              by_cases hgc : rp.1.goal_completed = true
              case pos =>
                have hres : run_loop_while clock exec (n + 1) a tick =
                    ({ rp.2.1 with state := AgentState.completed },
                     (should_stop clock rp.2.1 rp.2.2).2) := by
                  rw [run_loop_while, if_pos hg]
                  dsimp only
                  rw [if_pos hct, if_neg hs1, if_neg hs2, if_neg hs3, if_pos hgc]
                rw [hres]
                have hfc : PhaseFrame a ({ rp.2.1 with state := AgentState.completed }) :=
                  hfr.comp ⟨rfl, rfl, rfl, rfl, rfl, rfl, rfl, rfl⟩
                exact inv_of_frame hfc hmr h hlt
              case neg =>
                have hres : run_loop_while clock exec (n + 1) a tick =
                    run_loop_while clock exec n
                      { rp.2.1 with iterations_completed :=
                          rp.2.1.iterations_completed + 1 }
                      (should_stop clock rp.2.1 rp.2.2).2 := by
                  rw [run_loop_while, if_pos hg]
                  dsimp only
                  rw [if_pos hct, if_neg hs1, if_neg hs2, if_neg hs3, if_neg hgc]
                rw [hres]
                have hib : ({ rp.2.1 with iterations_completed :=
                    rp.2.1.iterations_completed + 1 } : Agent).iterations_completed ≤
                    ({ rp.2.1 with iterations_completed :=
                      rp.2.1.iterations_completed + 1 } : Agent).max_iterations := by
                  simp only [hfr.iters, hfr.maxIt]
                  omega
                obtain ⟨ih1, ih2, ih3, ih4⟩ := ih
                  { rp.2.1 with iterations_completed := rp.2.1.iterations_completed + 1 }
                  (should_stop clock rp.2.1 rp.2.2).2 hib
                refine ⟨?_, ?_, ?_, ?_⟩
                · refine le_trans ?_ ih1
                  simp only [hfr.iters]
                  omega
                · calc _ ≤ _ := ih2
                    _ = a.max_iterations := hfr.maxIt
                · rw [ih3]
                  exact hfr.maxIt
                · intro e he
                  rcases ih4 e he with h' | h'
                  · rcases hmr e h' with h'' | h''
                    · exact Or.inl h''
                    · exact Or.inr (h'' ▸ hlt)
                  · rw [hfr.maxIt] at h'
                    exact Or.inr h'

/-- The final-state determination only touches state and error_message. -/
theorem final_determination_frame (clock : Nat → Int) (a : Agent) (tick : Nat) :
    (final_determination clock a tick).1.iterations_completed = a.iterations_completed
    ∧ (final_determination clock a tick).1.max_iterations = a.max_iterations
    ∧ (final_determination clock a tick).1.execution_log = a.execution_log
    ∧ (final_determination clock a tick).1.current_plan = a.current_plan
    ∧ (final_determination clock a tick).1.stop_requested = a.stop_requested := by
  simp only [final_determination]
  split
  · split
    · exact ⟨rfl, rfl, rfl, rfl, rfl⟩
    · split
      · exact ⟨rfl, rfl, rfl, rfl, rfl⟩
      · exact ⟨rfl, rfl, rfl, rfl, rfl⟩
  · exact ⟨rfl, rfl, rfl, rfl, rfl⟩

/-- Claim C9: iterations_completed is 0 after start, and across run_loop
it never decreases, never exceeds max_iterations (the counter is only
incremented by one at a time under the loop guard), and every log entry
appended at a phase transition records an iteration index within the
bound. -/
theorem c9_iteration_bound (clock : Nat → Int) (exec : Option ToolExec)
    (a : Agent) (goal : String) (tick : Nat) :
    (a.running = false → (start clock a goal tick).2.1.iterations_completed = 0)
    ∧ (a.iterations_completed ≤ a.max_iterations →
        a.iterations_completed ≤ (run_loop clock exec a tick).2.1.iterations_completed
        ∧ (run_loop clock exec a tick).2.1.iterations_completed ≤ a.max_iterations
        ∧ ∀ e ∈ (run_loop clock exec a tick).2.1.execution_log,
            e ∈ a.execution_log ∨ entryIter e ≤ a.max_iterations) := by
  constructor
  · intro h
    simp [start, h]
  · intro h
    by_cases hg : truthyGoal a.current_goal = true
    case neg =>
      have hg' : truthyGoal a.current_goal = false := by
        simpa using hg
      have hres : run_loop clock exec a tick =
          (Except.error "No goal set for the agent", a, tick) := by
        rw [run_loop, if_pos (show (!truthyGoal a.current_goal) = true by
          rw [hg']
          rfl)]
      rw [hres]
      exact ⟨le_refl _, h, fun e he => Or.inl he⟩
    case pos =>
      obtain ⟨i1, i2, i3, i4⟩ := run_loop_while_invariant clock exec
        (a.max_iterations + 1) { a with running := true } tick h
      obtain ⟨f1, f2, f3, f4, f5⟩ := final_determination_frame clock
        (run_loop_while clock exec (a.max_iterations + 1)
          { a with running := true } tick).1
        (run_loop_while clock exec (a.max_iterations + 1)
          { a with running := true } tick).2
      have hres : (run_loop clock exec a tick).2.1.iterations_completed =
            (run_loop_while clock exec (a.max_iterations + 1)
              { a with running := true } tick).1.iterations_completed
          ∧ (run_loop clock exec a tick).2.1.execution_log =
            (run_loop_while clock exec (a.max_iterations + 1)
              { a with running := true } tick).1.execution_log := by
        rw [run_loop, if_neg (by simp [hg])]
        dsimp only
        exact ⟨f1, f3⟩
      refine ⟨?_, ?_, ?_⟩
      · rw [hres.1]
        exact i1
      · rw [hres.1]
        exact i2
      · intro e he
        rw [hres.2] at he
        rcases i4 e he with h' | h'
        · exact Or.inl h'
        · exact Or.inr h'.le

/-- The timeout check passes when every clock reading stays within the
timeout window of the recorded start time. -/
theorem check_timeout_true_of (clock : Nat → Int) (a : Agent) (tick : Nat) (s : Int)
    (hst : a.start_time = some s)
    (hclk : ∀ i, clock i - s < (a.timeout_seconds : Int)) :
    check_timeout clock a tick = (true, tick + 1) := by
  simp [check_timeout, hst, readClock, hclk tick]

/-- _should_stop is false when no stop was requested, the state is not
ERROR, and the clock stays within the timeout window. -/
theorem should_stop_false_of (clock : Nat → Int) (a : Agent) (tick : Nat) (s : Int)
    (hstop : a.stop_requested = false) (hse : a.state ≠ AgentState.error)
    (hst : a.start_time = some s)
    (hclk : ∀ i, clock i - s < (a.timeout_seconds : Int)) :
    should_stop clock a tick = (false, tick + 1) := by
  have h1 : (a.stop_requested || (a.state == AgentState.error)) = false := by
    simp [hstop, hse]
  simp [should_stop, h1, check_timeout_true_of clock a tick s hst hclk]

/-- With _should_stop always false, the act loop maps the per-action
body over all remaining actions, reading the clock once per action: no
action aborts the rest. -/
theorem act_loop_no_stop (clock : Nat → Int) (exec : Option ToolExec) (a : Agent) (s : Int)
    (hstop : a.stop_requested = false) (hse : a.state ≠ AgentState.error)
    (hst : a.start_time = some s)
    (hclk : ∀ i, clock i - s < (a.timeout_seconds : Int)) :
    ∀ (rest done : List Action) (tick : Nat),
      act_loop clock exec a done rest tick =
        (done ++ rest.map (apply_action exec), tick + rest.length) := by
  intro rest
  induction rest with
  | nil =>
    intro done tick
    simp [act_loop]
  | cons ac rs ih =>
    intro done tick
    rw [act_loop, should_stop_false_of clock a tick s hstop hse hst hclk]
    simp [ih]
    omega

/-- Closed form of the act phase when no stop condition interrupts. -/
theorem act_phase_no_stop (clock : Nat → Int) (exec : Option ToolExec) (a : Agent) (s : Int)
    (hstop : a.stop_requested = false) (hst : a.start_time = some s)
    (hclk : ∀ i, clock i - s < (a.timeout_seconds : Int)) (tick : Nat) :
    act_phase clock exec a tick =
      ({ a with state := AgentState.acting,
                current_plan := a.current_plan.map (apply_action exec),
                execution_log := a.execution_log ++
                  [LogEntry.act (clock (tick + a.current_plan.length))
                    (((a.current_plan.map (apply_action exec)).filter
                        (fun x => x.status == some "completed")).length)
                    (((a.current_plan.map (apply_action exec)).filter
                        (fun x => x.status == some "error")).length)
                    a.iterations_completed] },
       tick + a.current_plan.length + 1) := by
  have hal := act_loop_no_stop clock exec { a with state := AgentState.acting } s
    hstop (by simp) hst hclk a.current_plan [] tick
  simp only [act_phase]
  rw [hal]
  simp [readClock]

/-- Claim C5 counterexample: with no stop request, a clock that passes
the timeout window between the first and the second action makes the
per-action _should_stop check break the act loop, so the second action
is never attempted (its status stays absent) although no stop was
requested. -/
theorem c5_timeout_counterexample :
    ctrAgent.stop_requested = false
    ∧ (act_phase clkStep (some failExec) ctrAgent 0).1.current_plan.map
        (fun x => x.status) = [some "error", none] := by
  refine ⟨rfl, by decide⟩

/-- Claim C5 amended: in the act phase, as long as the per-action
_should_stop check stays false — no stop request and the clock within
the timeout window, not merely the absence of a stop request — every
action is attempted (a failing action does not abort the remaining
ones), each action whose invocation succeeds is marked completed with
the returned result, each failing one is marked error with the failure
text, and the appended act entry counts the completed and failed actions
of the updated plan. -/
theorem c5_act_phase_marks (clock : Nat → Int) (f : ToolExec) (a : Agent) (s : Int)
    (tick : Nat)
    (hstop : a.stop_requested = false) (hst : a.start_time = some s)
    (hclk : ∀ i, clock i - s < (a.timeout_seconds : Int)) :
    (act_phase clock (some f) a tick).1.current_plan =
        a.current_plan.map (apply_action (some f))
    ∧ (∀ ac : Action, ∀ r : ToolResult, f ac = ActResult.ok r →
        apply_action (some f) ac =
          { ac with status := some "completed", result := some (ActResult.ok r) })
    ∧ (∀ ac : Action, ∀ e : String, f ac = ActResult.err e →
        apply_action (some f) ac =
          { ac with status := some "error", result := some (ActResult.err e) })
    ∧ (act_phase clock (some f) a tick).1.execution_log =
        a.execution_log ++
          [LogEntry.act (clock (tick + a.current_plan.length))
            (((act_phase clock (some f) a tick).1.current_plan.filter
                (fun x => x.status == some "completed")).length)
            (((act_phase clock (some f) a tick).1.current_plan.filter
                (fun x => x.status == some "error")).length)
            a.iterations_completed] := by
  have hap := act_phase_no_stop clock (some f) a s hstop hst hclk tick
  refine ⟨?_, ?_, ?_, ?_⟩
  · rw [hap]
  · intro ac r hr
    simp [apply_action, execute_action, hr]
  · intro ac e he
    simp [apply_action, execute_action, he]
  · rw [hap]

/-- Witness for C5: acting on the three-action box plan with the mixed
executor rewrites the whole plan through the per-action body, and a
succeeding action is marked completed with its result. -/
theorem c5_act_phase_marks_witness :
    (act_phase clk1 (some mixedExec) actAgent 0).1.current_plan =
      actAgent.current_plan.map (apply_action (some mixedExec))
    ∧ apply_action (some mixedExec) sampleAction =
        { sampleAction with status := some "completed",
                            result := some (ActResult.ok []) } :=
  ⟨(c5_act_phase_marks clk1 mixedExec actAgent 1 0 rfl rfl
      (fun i => by norm_num [clk1, actAgent, agentA])).1,
   (c5_act_phase_marks clk1 mixedExec actAgent 1 0 rfl rfl
      (fun i => by norm_num [clk1, actAgent, agentA])).2.1
     sampleAction [] rfl⟩

/-- Applying the per-action body with an always-failing executor marks
the action with status error. -/
theorem apply_action_err_status (f : ToolExec) (hf : ∀ ac, ∃ e, f ac = ActResult.err e)
    (ac : Action) : (apply_action (some f) ac).status = some "error" := by
  obtain ⟨e, he⟩ := hf ac
  simp [apply_action, execute_action, he]

/-- Every action of a plan processed with an always-failing executor is
marked error. -/
theorem map_apply_action_err (f : ToolExec) (hf : ∀ ac, ∃ e, f ac = ActResult.err e)
    (l : List Action) :
    ∀ x ∈ l.map (apply_action (some f)), x.status = some "error" := by
  intro x hx
  simp only [List.mem_map] at hx
  obtain ⟨ac, _, rfl⟩ := hx
  exact apply_action_err_status f hf ac

/-- A list of all-error actions has no completed entries. -/
theorem filter_completed_nil {l : List Action}
    (h : ∀ x ∈ l, x.status = some "error") :
    l.filter (fun x => x.status == some "completed") = [] := by
  rw [List.filter_eq_nil_iff]
  intro x hx
  simp [h x hx]

/-- A list of all-error actions is kept whole by the error filter. -/
theorem filter_error_self {l : List Action}
    (h : ∀ x ∈ l, x.status = some "error") :
    l.filter (fun x => x.status == some "error") = l := by
  rw [List.filter_eq_self]
  intro x hx
  simp [h x hx]

/-- The report marks the goal incomplete when the completed count
differs from the total. -/
theorem report_goal_false (clock : Nat → Int) (a : Agent) (tick : Nat)
    (h0 : (a.current_plan.filter (fun x => x.status == some "completed")).length ≠
      a.current_plan.length) :
    (report_phase clock a tick).1.goal_completed = false := by
  have hb : ((a.current_plan.filter (fun x => x.status == some "completed")).length ==
      a.current_plan.length) = false := by
    simpa using h0
  simp [report_phase, hb]

/-- Behavior of the while loop under an always-failing executor with no
stop request and a clock inside the timeout window: the loop runs until
the iteration counter reaches max_iterations; whenever at least one
iteration runs, the loop ends in REPORTING with a non-empty plan fully
marked error; every appended act entry counts zero completed and at
least one failed action and every appended report entry carries
goalCompleted = false. -/
theorem run_loop_while_all_fail (clock : Nat → Int) (f : ToolExec)
    (hf : ∀ ac, ∃ e, f ac = ActResult.err e) (s : Int) :
    ∀ (fuel : Nat) (a : Agent) (tick : Nat),
      a.iterations_completed ≤ a.max_iterations →
      a.max_iterations - a.iterations_completed < fuel →
      a.stop_requested = false →
      a.start_time = some s →
      (∀ i, clock i - s < (a.timeout_seconds : Int)) →
      (run_loop_while clock (some f) fuel a tick).1.iterations_completed = a.max_iterations
      ∧ (run_loop_while clock (some f) fuel a tick).1.max_iterations = a.max_iterations
      ∧ (run_loop_while clock (some f) fuel a tick).1.stop_requested = false
      ∧ (a.iterations_completed < a.max_iterations →
          (run_loop_while clock (some f) fuel a tick).1.state = AgentState.reporting
          ∧ (run_loop_while clock (some f) fuel a tick).1.current_plan ≠ []
          ∧ ∀ ac ∈ (run_loop_while clock (some f) fuel a tick).1.current_plan,
              ac.status = some "error")
      ∧ (a.iterations_completed = a.max_iterations →
          (run_loop_while clock (some f) fuel a tick).1 = a)
      ∧ (∀ e ∈ (run_loop_while clock (some f) fuel a tick).1.execution_log,
          e ∈ a.execution_log ∨ entryFailShape e = true) := by
  intro fuel
  induction fuel with
  | zero =>
    intro a tick h hfuel hstop hst hclk
    omega
  | succ n ih =>
    intro a tick h hfuel hstop hst hclk
    rcases Nat.lt_or_ge a.iterations_completed a.max_iterations with hlt | hge
    case inr =>
      have heq : a.iterations_completed = a.max_iterations := le_antisymm h hge
      have hg : (decide (a.iterations_completed < a.max_iterations)
          && !a.stop_requested) = false := by
        simp [heq]
      have hres : run_loop_while clock (some f) (n + 1) a tick = (a, tick) := by
        rw [run_loop_while, if_neg (by simp [hg])]
      rw [hres]
      exact ⟨heq, rfl, hstop, fun hc => absurd heq hc.ne, fun _ => rfl,
        fun e he => Or.inl he⟩
    case inl =>
      have hg : (decide (a.iterations_completed < a.max_iterations)
          && !a.stop_requested) = true := by
        simp [hlt, hstop]
      have hct1 : (check_timeout clock a tick).1 = true := by
        rw [check_timeout_true_of clock a tick s hst hclk]
      set pp := plan_phase clock a (check_timeout clock a tick).2 with hpp
      have hse1 : pp.1.state ≠ AgentState.error := by
        rw [hpp]
        simp [plan_phase]
      have hsf1 := should_stop_false_of clock pp.1 pp.2 s hstop hse1 hst hclk
      have hs1 : (should_stop clock pp.1 pp.2).1 = false := by rw [hsf1]
      set ap := act_phase clock (some f) pp.1 (should_stop clock pp.1 pp.2).2 with hap
      have hse2 : ap.1.state ≠ AgentState.error := by
        rw [hap]
        simp [act_phase]
      have hsf2 := should_stop_false_of clock ap.1 ap.2 s hstop hse2 hst hclk
      have hs2 : (should_stop clock ap.1 ap.2).1 = false := by rw [hsf2]
      set rp := report_phase clock ap.1 (should_stop clock ap.1 ap.2).2 with hrp
      have hse3 : rp.2.1.state ≠ AgentState.error := by
        rw [hrp]
        simp [report_phase]
      have hsf3 := should_stop_false_of clock rp.2.1 rp.2.2 s hstop hse3 hst hclk
      have hs3 : (should_stop clock rp.2.1 rp.2.2).1 = false := by rw [hsf3]
      have hppplan : pp.1.current_plan = create_plan_for_goal (a.current_goal.getD "") := by
        rw [hpp]
        rfl
      have hplan : ap.1.current_plan = pp.1.current_plan.map (apply_action (some f)) := by
        rw [hap, act_phase_no_stop clock (some f) pp.1 s hstop hst hclk]
      have hallerr : ∀ x ∈ ap.1.current_plan, x.status = some "error" := by
        rw [hplan]
        exact map_apply_action_err f hf _
      have hne : ap.1.current_plan ≠ [] := by
        rw [hplan, hppplan]
        simp only [ne_eq, List.map_eq_nil_iff]
        exact create_plan_ne_nil _
      have h0 : (ap.1.current_plan.filter (fun x => x.status == some "completed")).length ≠
          ap.1.current_plan.length := by
        rw [filter_completed_nil hallerr]
        intro hcon
        exact hne (List.length_eq_zero.mp hcon.symm)
      have hgc : rp.1.goal_completed = false := by
        rw [hrp]
        exact report_goal_false clock ap.1 _ h0
      have hfchain : PhaseFrame a rp.2.1 :=
        ((plan_phase_frame clock a (check_timeout clock a tick).2).comp
          (act_phase_frame clock (some f) pp.1 (should_stop clock pp.1 pp.2).2)).comp
          (report_phase_frame clock ap.1 (should_stop clock ap.1 ap.2).2)
      have hI : rp.2.1.iterations_completed = a.iterations_completed := hfchain.iters
      have hM : rp.2.1.max_iterations = a.max_iterations := hfchain.maxIt
      have hshape_pp : ∀ e ∈ pp.1.execution_log,
          e ∈ a.execution_log ∨ entryFailShape e = true := by
        rw [hpp, plan_phase_eq]
        intro e he
        simp only [List.mem_append, List.mem_singleton] at he
        rcases he with h' | h'
        · exact Or.inl h'
        · subst h'
          exact Or.inr rfl
      have hshape_act : ∀ e ∈ ap.1.execution_log,
          e ∈ pp.1.execution_log ∨ entryFailShape e = true := by
        rw [hap, act_phase_no_stop clock (some f) pp.1 s hstop hst hclk]
        intro e he
        simp only [List.mem_append, List.mem_singleton] at he
        rcases he with h' | h'
        · exact Or.inl h'
        · subst h'
          refine Or.inr ?_
          simp only [entryFailShape]
          rw [filter_completed_nil (map_apply_action_err f hf _),
            filter_error_self (map_apply_action_err f hf _)]
          simp [hppplan, List.length_pos, List.map_eq_nil_iff,
            create_plan_ne_nil (a.current_goal.getD "")]
      have hlog_rp : rp.2.1.execution_log =
          ap.1.execution_log ++
            [LogEntry.report (clock ((should_stop clock ap.1 ap.2).2)) rp.1
              ap.1.iterations_completed] := by
        rw [hrp]
        rfl
      have hshape_B : ∀ e ∈ rp.2.1.execution_log,
          e ∈ a.execution_log ∨ entryFailShape e = true := by
        intro e he
        rw [hlog_rp] at he
        simp only [List.mem_append, List.mem_singleton] at he
        rcases he with h' | h'
        · rcases hshape_act e h' with h'' | h''
          · exact hshape_pp e h''
          · exact Or.inr h''
        · subst h'
          refine Or.inr ?_
          simp [entryFailShape, hgc]
      have hres : run_loop_while clock (some f) (n + 1) a tick =
          run_loop_while clock (some f) n
            { rp.2.1 with iterations_completed := rp.2.1.iterations_completed + 1 }
            (should_stop clock rp.2.1 rp.2.2).2 := by
        rw [run_loop_while, if_pos hg]
        dsimp only
        rw [if_pos hct1, if_neg (by simp [hs1]), if_neg (by simp [hs2]),
          if_neg (by simp [hs3]),
          if_neg (fun hcon =>
            absurd (show rp.1.goal_completed = true from hcon) (by simp [hgc]))]
      rw [hres]
      obtain ⟨j1, j2, j3, j4, j5, j6⟩ := ih
        { rp.2.1 with iterations_completed := rp.2.1.iterations_completed + 1 }
        ((should_stop clock rp.2.1 rp.2.2).2)
        (by simp only [hI, hM]; omega)
        (by simp only [hI, hM]; omega)
        hstop hst hclk
      refine ⟨?_, ?_, ?_, ?_, ?_, ?_⟩
      · rw [j1]
        exact hM
      · rw [j2]
        exact hM
      · exact j3
      · intro _
        by_cases hcase : a.iterations_completed + 1 < a.max_iterations
        case pos =>
          exact j4 (by simp only [hI, hM]; omega)
        case neg =>
          have hXB := j5 (by simp only [hI, hM]; omega)
          rw [hXB]
          have hstate : rp.2.1.state = AgentState.reporting := by
            rw [hrp]
            rfl
          exact ⟨hstate, hne, hallerr⟩
      · intro hc
        exact absurd hc hlt.ne
      · intro e he
        rcases j6 e he with h' | h'
        · exact hshape_B e h'
        · exact Or.inr h'

/-- Claim C6: after the loop, when it ended without a stop request and
the state is not already COMPLETED, exhausting max_iterations yields the
non-error COMPLETED state (error message untouched) while a failed
timeout check instead yields ERROR with the fixed timeout message; and
under an always-failing executor (fresh log, counter at zero, clock
within the window) the loop runs to max_iterations, marks every action
of each iteration error, reports goalCompleted false every iteration,
and run_loop ends in state COMPLETED. -/
theorem c6_exhaustion_policy (clock : Nat → Int) (f : ToolExec) (a : Agent) (s : Int)
    (tick : Nat) :
    (∀ (b : Agent) (t₂ : Nat), b.stop_requested = false → b.state ≠ AgentState.completed →
        (b.max_iterations ≤ b.iterations_completed →
          (final_determination clock b t₂).1.state = AgentState.completed
          ∧ (final_determination clock b t₂).1.error_message = b.error_message)
        ∧ (b.iterations_completed < b.max_iterations →
            (check_timeout clock b t₂).1 = false →
            (final_determination clock b t₂).1.state = AgentState.error
            ∧ (final_determination clock b t₂).1.error_message =
                some "Execution timeout exceeded"))
    ∧ ((∀ ac, ∃ e, f ac = ActResult.err e) →
        a.iterations_completed = 0 →
        a.stop_requested = false →
        truthyGoal a.current_goal = true →
        a.start_time = some s →
        (∀ i, clock i - s < (a.timeout_seconds : Int)) →
        a.execution_log = [] →
        (run_loop clock (some f) a tick).2.1.iterations_completed = a.max_iterations
        ∧ (run_loop clock (some f) a tick).2.1.state = AgentState.completed
        ∧ (0 < a.max_iterations →
            (run_loop clock (some f) a tick).2.1.current_plan ≠ []
            ∧ ∀ ac ∈ (run_loop clock (some f) a tick).2.1.current_plan,
                ac.status = some "error")
        ∧ ∀ e ∈ (run_loop clock (some f) a tick).2.1.execution_log,
            entryFailShape e = true) := by
  constructor
  · intro b t₂ hb1 hb2
    have hcond : (!b.stop_requested && !(b.state == AgentState.completed)) = true := by
      simp [hb1, hb2]
    constructor
    · intro hmax
      have hfd : final_determination clock b t₂ =
          ({ b with state := AgentState.completed }, t₂) := by
        rw [final_determination, if_pos hcond, if_pos hmax]
      rw [hfd]
      exact ⟨rfl, rfl⟩
    · intro hit hto
      have hnot : ¬(b.max_iterations ≤ b.iterations_completed) := by omega
      have hfd : final_determination clock b t₂ =
          ({ b with state := AgentState.error
                    error_message := some "Execution timeout exceeded" },
           (check_timeout clock b t₂).2) := by
        rw [final_determination, if_pos hcond, if_neg hnot]
        dsimp only
        rw [if_pos (by simp [hto])]
      rw [hfd]
      exact ⟨rfl, rfl⟩
  · intro hf h0 hstop hgoal hst hclk hlog
    have hle : a.iterations_completed ≤ a.max_iterations := by omega
    set lw := run_loop_while clock (some f) (a.max_iterations + 1)
      { a with running := true } tick with hlw
    obtain ⟨k1, k2, k3, k4, k5, k6⟩ := run_loop_while_all_fail clock f hf s
      (a.max_iterations + 1) { a with running := true } tick
      hle (by dsimp only; omega) hstop hst hclk
    have k1' : lw.1.iterations_completed = a.max_iterations := k1
    have k2' : lw.1.max_iterations = a.max_iterations := k2
    have k3' : lw.1.stop_requested = false := k3
    set fd := final_determination clock lw.1 lw.2 with hfd
    obtain ⟨f1, f2, f3, f4, f5⟩ := final_determination_frame clock lw.1 lw.2
    have hrl2 : (run_loop clock (some f) a tick).2.1 =
        { fd.1 with running := false, end_time := some (clock fd.2) } := by
      rw [run_loop, if_neg (by simp [hgoal])]
      rfl
    have hfinstate : fd.1.state = AgentState.completed := by
      by_cases hbs : lw.1.state = AgentState.completed
      case pos =>
        have hskip : final_determination clock lw.1 lw.2 = (lw.1, lw.2) := by
          rw [final_determination, if_neg (by simp [hbs])]
        rw [hfd, hskip]
        exact hbs
      case neg =>
        have hcondb : (!lw.1.stop_requested && !(lw.1.state == AgentState.completed)) =
            true := by
          simp [k3', hbs]
        have hmaxle : lw.1.max_iterations ≤ lw.1.iterations_completed := by
          rw [k1', k2']
        have hcomp : final_determination clock lw.1 lw.2 =
            ({ lw.1 with state := AgentState.completed }, lw.2) := by
          rw [final_determination, if_pos hcondb, if_pos hmaxle]
        rw [hfd, hcomp]
    refine ⟨?_, ?_, ?_, ?_⟩
    · rw [hrl2]
      exact f1.trans k1
    · rw [hrl2]
      exact hfinstate
    · intro hpos
      have hiter0 : ({ a with running := true } : Agent).iterations_completed <
          ({ a with running := true } : Agent).max_iterations := by
        simpa [h0] using hpos
      obtain ⟨w1, w2, w3⟩ := k4 hiter0
      constructor
      · rw [hrl2]
        show fd.1.current_plan ≠ []
        rw [hfd]
        intro hcon
        exact w2 (f4.symm.trans hcon)
      · rw [hrl2]
        intro ac hac
        refine w3 ac ?_
        have hpl : fd.1.current_plan = lw.1.current_plan := f4
        exact hpl ▸ hac
    · intro e he
      rw [hrl2] at he
      have hloge : e ∈ lw.1.execution_log := by
        have hle2 : fd.1.execution_log = lw.1.execution_log := f3
        exact hle2 ▸ he
      rcases k6 e hloge with h' | h'
      · have hmem : e ∈ a.execution_log := h'
        rw [hlog] at hmem
        exact absurd hmem (List.not_mem_nil e)
      · exact h'

/-- Witness for C6: with the always-failing executor, the fresh agent
(two max iterations) ends COMPLETED with both iterations consumed, and
the mid-run agent whose timeout window is zero is driven to ERROR by the
final-state determination. -/
theorem c6_exhaustion_policy_witness :
    (run_loop clk1 (some failExec) freshAgent 0).2.1.iterations_completed = 2
    ∧ (run_loop clk1 (some failExec) freshAgent 0).2.1.state = AgentState.completed
    ∧ (final_determination clk1 timeoutAgent 0).1.state = AgentState.error := by
  have hB := (c6_exhaustion_policy clk1 failExec freshAgent 1 0).2
    (fun ac => ⟨"tool failure", rfl⟩) rfl rfl (by decide) rfl
    (fun i => by norm_num [clk1, freshAgent, agentA]) rfl
  have hA := ((c6_exhaustion_policy clk1 failExec freshAgent 1 0).1 timeoutAgent 0
    rfl (by decide)).2 (by decide) (by decide)
  exact ⟨hB.1, hB.2.1, hA.1⟩

/-- Claim C8 counterexample: calling run_loop on an agent with no goal
set exits through the missing-goal failure raised before the try block,
an exit path of run_loop on which endTime is never set and the
finalization point does not run (the agent is returned untouched). -/
theorem c8_no_goal_counterexample :
    (run_loop clk1 (some failExec) goallessAgent 0).1 =
      Except.error "No goal set for the agent"
    ∧ (run_loop clk1 (some failExec) goallessAgent 0).2.1 = goallessAgent
    ∧ (run_loop clk1 (some failExec) goallessAgent 0).2.1.end_time = none :=
  ⟨rfl, rfl, rfl⟩

/-- Claim C8 amended: apart from the missing-goal precondition failure,
which is raised before the loop begins and leaves the agent (its running
flag and endTime included) untouched, run_loop always returns normally
with running = false and endTime freshly set at the single finalization
point, and the factory task wrapper absorbs even the precondition
failure, so nothing propagates across the background-task boundary. -/
theorem c8_finalization (clock : Nat → Int) (exec : Option ToolExec) (a : Agent)
    (tick : Nat) :
    (truthyGoal a.current_goal = false →
      (run_loop clock exec a tick).1 = Except.error "No goal set for the agent"
      ∧ (run_loop clock exec a tick).2.1 = a)
    ∧ (truthyGoal a.current_goal = true →
        (run_loop clock exec a tick).1.isOk = true
        ∧ (run_loop clock exec a tick).2.1.running = false
        ∧ ∃ n : Nat, (run_loop clock exec a tick).2.1.end_time = some (clock n))
    ∧ run_agent_loop clock exec a tick = (run_loop clock exec a tick).2 := by
  refine ⟨?_, ?_, rfl⟩
  · intro h
    have hres : run_loop clock exec a tick =
        (Except.error "No goal set for the agent", a, tick) := by
      rw [run_loop, if_pos (show (!truthyGoal a.current_goal) = true by
        rw [h]
        rfl)]
    rw [hres]
    exact ⟨rfl, rfl⟩
  · intro h
    have hcond : ¬((!truthyGoal a.current_goal) = true) := by simp [h]
    refine ⟨?_, ?_, ?_⟩
    · rw [run_loop, if_neg hcond]
      rfl
    · rw [run_loop, if_neg hcond]
    · refine ⟨(final_determination clock
        (run_loop_while clock exec (a.max_iterations + 1)
          { a with running := true } tick).1
        (run_loop_while clock exec (a.max_iterations + 1)
          { a with running := true } tick).2).2, ?_⟩
      rw [run_loop, if_neg hcond]
      rfl

/-- Witness for C8: on the fresh goal-carrying agent the loop finishes
with running = false. -/
theorem c8_finalization_witness :
    (run_loop clk1 (some failExec) freshAgent 0).2.1.running = false :=
  (((c8_finalization clk1 (some failExec) freshAgent 0).2.1 (by decide)).2).1

/-- Witness for C9: starting the idle stale agent resets the counter to
0, and the loop on the fresh two-iteration agent ends within its bound. -/
theorem c9_iteration_bound_witness :
    (start clk100 staleAgent "new goal" 0).2.1.iterations_completed = 0
    ∧ (run_loop clk1 (some failExec) freshAgent 0).2.1.iterations_completed ≤ 2 :=
  ⟨(c9_iteration_bound clk100 (some failExec) staleAgent "new goal" 0).1 rfl,
   ((c9_iteration_bound clk1 (some failExec) freshAgent "x" 0).2 (by decide)).2.1⟩

end FusionAgent
